import Mathlib

/-!
A shallow embedding of the keystroke statistics engine of
`src/keystroke_stats.c` (zmk-keystroke-stats), with the default feature set
(WPM, session tracking, key heatmap and daily history all enabled, as in the
repository's documented defaults).

Machine integers are embedded as `Nat` with explicit reduction modulo
`2^8` / `2^16` / `2^32` wherever the C code can wrap; unsigned subtraction is
`u32sub`.  Fixed C arrays are embedded as `List`s whose length equals the
array size (well-formedness hypotheses state the lengths where a theorem
needs them); the daily-history array keeps the C's separate
`daily_history_count` field.  `k_uptime_get()` is passed in as an explicit
`now` argument (one reading per event, as the C reads it within one mutex
section).  The callback registry is embedded as the list of its live
entries (the C scans and writes only indices below `callback_count`, so the
live prefix is the whole observable state of the array).  Pointers that the
C checks against NULL are embedded as `Nat` handles with `0` for NULL, or as
a `Bool` null flag for output pointers.
-/

def U8 : Nat := 256

def U16 : Nat := 65536

def U32 : Nat := 4294967296

/-- Unsigned 32-bit subtraction `a - b` as the C performs it. -/
def u32sub (a b : Nat) : Nat := (a % U32 + (U32 - b % U32)) % U32

/-- Compile-time configuration (the `CONFIG_ZMK_KEYSTROKE_STATS_*` Kconfig
values that the engine's code reads). -/
structure Config where
  rolloverHour : Nat
  wpmWindowMs : Nat
  sessionTimeoutMs : Nat
  maxKeyPositions : Nat
  topKeysCount : Nat
  dailyHistoryDays : Nat
deriving Repr, DecidableEq

/-- `struct zmk_keystroke_stats_daily_entry`: year/month are `uint16`/`uint8`
(always written 0 by the engine), `day` is `uint8`, `keystrokes` `uint32`. -/
structure DailyEntry where
  year : Nat
  month : Nat
  day : Nat
  keystrokes : Nat
deriving Repr, DecidableEq

def zeroEntry : DailyEntry := ⟨0, 0, 0, 0⟩

/-- The engine's internal `state` struct of `keystroke_stats.c`. -/
structure EngineState where
  total_keystrokes : Nat
  today_keystrokes : Nat
  yesterday_keystrokes : Nat
  session_keystrokes : Nat
  session_start_time : Nat
  current_wpm : Nat
  average_wpm : Nat
  peak_wpm : Nat
  total_typing_time_ms : Nat
  wpm_keystrokes : List Nat
  wpm_timestamps : List Nat
  wpm_head : Nat
  wpm_count : Nat
  key_counts : List Nat
  daily_history : List DailyEntry
  daily_history_count : Nat
  current_uptime_day : Nat
  last_keystroke_time : Nat
  callbacks : List (Nat × Nat)
  callback_count : Nat
  save_pending : Bool
  initialized : Bool
deriving Repr, DecidableEq

/-- `get_uptime_day`: day index from uptime, adjusted by the rollover hour,
clamped at zero, truncated to `uint16` by the cast. -/
def get_uptime_day (cfg : Config) (now : Nat) : Nat :=
  let uptime_hours := (now % U32) / 3600000
  let adjusted : Int := (uptime_hours : Int) - (cfg.rolloverHour : Int)
  let adjusted := if adjusted < 0 then 0 else adjusted
  (adjusted / 24).toNat % U16

/-- `schedule_save`: no-op before initialization, otherwise (re)schedules the
debounced save work item and marks a save pending. -/
def schedule_save (s : EngineState) : EngineState :=
  if s.initialized then { s with save_pending := true } else s

/-- One step of a left-shifting copy loop `l[lo+k] = l[lo+k+1]` for
`k = 0 .. n-1` (the C loops in `check_day_rollover` and
`zmk_keystroke_stats_unregister_callback`). -/
def shift_from (d : α) (lo : Nat) (l : List α) : Nat → List α
  | 0 => l
  | n + 1 =>
    let l' := shift_from d lo l n
    l'.set (lo + n) (l'.getD (lo + n + 1) d)

/-- `check_day_rollover`: on a derived-day change, archive today's count into
the daily history (append, or shift-evict when the array is full), move
today into yesterday, zero today, store the new day, schedule a save and
notify.  The returned `Bool` records whether `notify_callbacks` ran. -/
def check_day_rollover (cfg : Config) (now : Nat) (s : EngineState) :
    EngineState × Bool :=
  let current_day := get_uptime_day cfg now
  if current_day ≠ s.current_uptime_day then
    let entry : DailyEntry :=
      ⟨0, 0, s.current_uptime_day % U8, s.today_keystrokes⟩
    let s1 :=
      if s.daily_history_count < cfg.dailyHistoryDays then
        { s with
          daily_history := s.daily_history.set s.daily_history_count entry,
          daily_history_count := (s.daily_history_count + 1) % U8 }
      else
        { s with
          daily_history :=
            (shift_from zeroEntry 0 s.daily_history
                (cfg.dailyHistoryDays - 1)).set
              (cfg.dailyHistoryDays - 1) entry }
    let s2 := { s1 with
      yesterday_keystrokes := s1.today_keystrokes,
      today_keystrokes := 0,
      current_uptime_day := current_day }
    (schedule_save s2, true)
  else (s, false)

/-- The scan loop of `update_wpm` over ring indices `0 .. n-1`: sums the
counts of entries no older than `window_ms` and tracks the oldest qualifying
timestamp (starting from `now`). -/
def wpm_scan (window_ms now : Nat) (ts ks : List Nat) : Nat → Nat × Nat
  | 0 => (0, now % U32)
  | n + 1 =>
    let acc := wpm_scan window_ms now ts ks n
    let t := ts.getD n 0
    if u32sub now t ≤ window_ms then
      ((acc.1 + ks.getD n 0) % U32, if t < acc.2 then t else acc.2)
    else acc

/-- `update_wpm`: insert `(now, 1)` at the ring head, advance head and count,
recompute `current_wpm` from the qualifying window entries (saturated at the
`uint8` maximum via `MIN(wpm, 255)`), track `peak_wpm`, and refresh the
session `average_wpm`. -/
def update_wpm (cfg : Config) (now : Nat) (s : EngineState) : EngineState :=
  let nowU := now % U32
  let ts := s.wpm_timestamps.set s.wpm_head nowU
  let ks := s.wpm_keystrokes.set s.wpm_head 1
  let head := (s.wpm_head + 1) % 10
  let count := if s.wpm_count < 10 then s.wpm_count + 1 else s.wpm_count
  let scan := wpm_scan cfg.wpmWindowMs now ts ks count
  let elapsed := u32sub now scan.2
  let s1 : EngineState :=
    if 0 < elapsed ∧ 0 < scan.1 then
      let wpm := (scan.1 * 60000 % U32) / (elapsed * 5 % U32)
      let cur := min wpm 255
      { s with
        wpm_timestamps := ts, wpm_keystrokes := ks,
        wpm_head := head, wpm_count := count,
        current_wpm := cur,
        peak_wpm := if s.peak_wpm < cur then cur else s.peak_wpm }
    else
      { s with
        wpm_timestamps := ts, wpm_keystrokes := ks,
        wpm_head := head, wpm_count := count,
        current_wpm := 0 }
  if 0 < s1.session_keystrokes ∧ 0 < s1.session_start_time then
    let dur := u32sub now s1.session_start_time
    if 0 < dur then
      { s1 with
        average_wpm := min (s1.session_keystrokes * 60000 % U32 / (dur * 5 % U32)) 255 }
    else s1
  else s1

/-- `check_session_timeout`: after an idle gap longer than the configured
timeout, zero the session counters and the short-window speed state. -/
def check_session_timeout (cfg : Config) (now : Nat) (s : EngineState) :
    EngineState :=
  let idle := u32sub now s.last_keystroke_time
  if cfg.sessionTimeoutMs < idle then
    { s with
      session_keystrokes := 0, session_start_time := now % U32,
      average_wpm := 0, peak_wpm := 0, wpm_count := 0, wpm_head := 0 }
  else s

/-- The session/heatmap statement sequence of `keystroke_event_listener`
between the counter bumps and the WPM update: session timeout check,
session start on a fresh session, session increment, last-keystroke
timestamp, heatmap bump (out-of-range positions silently dropped). -/
def listener_mid (cfg : Config) (now position : Nat) (sA : EngineState) :
    EngineState :=
  let sB := check_session_timeout cfg now sA
  let sC := if sB.session_keystrokes = 0 then
      { sB with session_start_time := now % U32 }
    else sB
  let sD := { sC with
    session_keystrokes := (sC.session_keystrokes + 1) % U32,
    last_keystroke_time := now % U32 }
  if position < cfg.maxKeyPositions then
    { sD with key_counts :=
        sD.key_counts.set position ((sD.key_counts.getD position 0 + 1) % U32) }
  else sD

/-- `keystroke_event_listener` for a `zmk_keycode_state_changed` event:
releases (`pressed = false`) are ignored; presses bump the counters, run the
session/WPM/heatmap updates (`listener_mid`), check the day rollover and
notify.  The `Bool` result records whether `notify_callbacks` ran.
`position` is the event's `usage_page` field, as the code reads it. -/
def keystroke_event_listener (cfg : Config) (now : Nat) (pressed : Bool)
    (position : Nat) (s : EngineState) : EngineState × Bool :=
  if !pressed then (s, false)
  else
    let sA := { s with
      total_keystrokes := (s.total_keystrokes + 1) % U32,
      today_keystrokes := (s.today_keystrokes + 1) % U32 }
    let sF := update_wpm cfg now (listener_mid cfg now position sA)
    ((check_day_rollover cfg now sF).1, true)

/-- Process a list of key events `(time, pressed, position)` in order. -/
def process_events (cfg : Config) (evs : List (Nat × Bool × Nat))
    (s : EngineState) : EngineState :=
  evs.foldl (fun st ev => (keystroke_event_listener cfg ev.1 ev.2.1 ev.2.2 st).1) s

/-- `keystroke_stats_init` when no persisted data is found: zero the whole
state, derive the initial uptime day, mark initialized. -/
def keystroke_stats_init (cfg : Config) (now : Nat) : EngineState :=
  { total_keystrokes := 0, today_keystrokes := 0, yesterday_keystrokes := 0,
    session_keystrokes := 0, session_start_time := 0,
    current_wpm := 0, average_wpm := 0, peak_wpm := 0, total_typing_time_ms := 0,
    wpm_keystrokes := List.replicate 10 0, wpm_timestamps := List.replicate 10 0,
    wpm_head := 0, wpm_count := 0,
    key_counts := List.replicate cfg.maxKeyPositions 0,
    daily_history := List.replicate cfg.dailyHistoryDays zeroEntry,
    daily_history_count := 0,
    current_uptime_day := get_uptime_day cfg now,
    last_keystroke_time := 0,
    callbacks := [], callback_count := 0,
    save_pending := false, initialized := true }

/-- One conditional swap of the selection loop in `zmk_keystroke_stats_get`:
swap entries `i` and `j` when entry `j` has the strictly larger count. -/
def sel_step (l : List (Nat × Nat)) (i j : Nat) : List (Nat × Nat) :=
  if (l.getD i (0, 0)).2 < (l.getD j (0, 0)).2 then
    (l.set i (l.getD j (0, 0))).set j (l.getD i (0, 0))
  else l

/-- The inner loop (over `j`) of the selection in `zmk_keystroke_stats_get`. -/
def sel_scan (i : Nat) : List (Nat × Nat) → List Nat → List (Nat × Nat)
  | l, [] => l
  | l, j :: js => sel_scan i (sel_step l i j) js

/-- The outer loop (over `i`) of the selection in `zmk_keystroke_stats_get`. -/
def sel_sort_passes (M : Nat) : List (Nat × Nat) → List Nat → List (Nat × Nat)
  | l, [] => l
  | l, i :: is => sel_sort_passes M (sel_scan i l (List.range' (i + 1) (M - (i + 1)))) is

/-- The top-K computation of `zmk_keystroke_stats_get`: copy all
`(position, count)` pairs, run `K` selection passes, emit the first `K`
entries. -/
def top_keys_of (K M : Nat) (counts : List Nat) : List (Nat × Nat) :=
  (sel_sort_passes M ((List.range M).map (fun i => (i, counts.getD i 0)))
    (List.range K)).take K

/-- `struct zmk_keystroke_stats`, the snapshot filled in by
`zmk_keystroke_stats_get`. -/
structure Snapshot where
  total_keystrokes : Nat
  today_keystrokes : Nat
  yesterday_keystrokes : Nat
  session_keystrokes : Nat
  current_wpm : Nat
  average_wpm : Nat
  peak_wpm : Nat
  total_typing_time_ms : Nat
  session_start_time : Nat
  last_keystroke_time : Nat
  top_keys : List (Nat × Nat)
  daily_stats : List DailyEntry
  daily_stats_count : Nat
  current_uptime_day : Nat
deriving Repr, DecidableEq

/-- `zmk_keystroke_stats_get`: `-EINVAL` on a NULL output pointer, otherwise
fill a snapshot from the state (top keys computed on demand) and return 0.
The state is threaded through unchanged, as the C function writes only to
the caller's output struct. -/
def zmk_keystroke_stats_get (cfg : Config) (stats_null : Bool)
    (s : EngineState) : Int × Option Snapshot × EngineState :=
  if stats_null then (-22, none, s)
  else
    (0, some
      { total_keystrokes := s.total_keystrokes,
        today_keystrokes := s.today_keystrokes,
        yesterday_keystrokes := s.yesterday_keystrokes,
        session_keystrokes := s.session_keystrokes,
        current_wpm := s.current_wpm,
        average_wpm := s.average_wpm,
        peak_wpm := s.peak_wpm,
        total_typing_time_ms := s.total_typing_time_ms,
        session_start_time := s.session_start_time,
        last_keystroke_time := s.last_keystroke_time,
        top_keys := top_keys_of cfg.topKeysCount cfg.maxKeyPositions s.key_counts,
        daily_stats := (List.range s.daily_history_count).map
          (fun i => s.daily_history.getD i zeroEntry),
        daily_stats_count := s.daily_history_count,
        current_uptime_day := s.current_uptime_day }, s)

/-- `zmk_keystroke_stats_reset`: zero today/yesterday, session, speed state
(ring emptied by zeroing head and count), heatmap and daily history; zero
the total only when `reset_total`; schedule a save; return 0. -/
def zmk_keystroke_stats_reset (cfg : Config) (now : Nat) (reset_total : Bool)
    (s : EngineState) : Int × EngineState :=
  let s0 := if reset_total then { s with total_keystrokes := 0 } else s
  let s1 := { s0 with
    today_keystrokes := 0, yesterday_keystrokes := 0,
    session_keystrokes := 0, session_start_time := now % U32,
    current_wpm := 0, average_wpm := 0, peak_wpm := 0,
    wpm_count := 0, wpm_head := 0,
    key_counts := List.replicate cfg.maxKeyPositions 0,
    daily_history_count := 0,
    daily_history := List.replicate cfg.dailyHistoryDays zeroEntry }
  (0, schedule_save s1)

/-- `zmk_keystroke_stats_register_callback`: `-EINVAL` on a NULL handler
(handle value 0), `-ENOMEM` once the 4-slot registry is full, otherwise
append the `(handler, user_data)` pair. -/
def zmk_keystroke_stats_register_callback (handler user_data : Nat)
    (s : EngineState) : Int × EngineState :=
  if handler = 0 then (-22, s)
  else if 4 ≤ s.callback_count then (-12, s)
  else
    (0, { s with
      callbacks := s.callbacks ++ [(handler, user_data)],
      callback_count := (s.callback_count + 1) % U8 })

/-- `zmk_keystroke_stats_unregister_callback`: scan for the first registered
entry with this handler; if found, close the gap by shifting the later
entries down (removal of the first occurrence) and return 0, else
`-ENOENT`. -/
def zmk_keystroke_stats_unregister_callback (handler : Nat)
    (s : EngineState) : Int × EngineState :=
  if s.callbacks.any (fun p => p.1 == handler) then
    (0, { s with
      callbacks := s.callbacks.eraseP (fun p => p.1 == handler),
      callback_count := s.callback_count - 1 })
  else (-2, s)

/-- `struct zmk_keystroke_stats_persist_data` with the default features. -/
structure PersistData where
  version : Nat
  total_keystrokes : Nat
  today_keystrokes : Nat
  yesterday_keystrokes : Nat
  current_uptime_day : Nat
  peak_wpm : Nat
  total_typing_time_ms : Nat
  key_counts : List Nat
  daily_history : List DailyEntry
  daily_history_count : Nat
deriving Repr, DecidableEq

def PERSIST_DATA_VERSION : Nat := 1

/-- `zmk_keystroke_stats_get_persist_data` on a non-NULL output pointer:
fill the snapshot with the supported version tag and the persistable
fields (the NULL-pointer branch returns `-EINVAL` and is not modelled
further). -/
def zmk_keystroke_stats_get_persist_data (s : EngineState) : PersistData :=
  { version := PERSIST_DATA_VERSION,
    total_keystrokes := s.total_keystrokes,
    today_keystrokes := s.today_keystrokes,
    yesterday_keystrokes := s.yesterday_keystrokes,
    current_uptime_day := s.current_uptime_day,
    peak_wpm := s.peak_wpm,
    total_typing_time_ms := s.total_typing_time_ms,
    key_counts := s.key_counts,
    daily_history := s.daily_history,
    daily_history_count := s.daily_history_count }

/-- `zmk_keystroke_stats_load_persist_data`: `-EINVAL` on a NULL pointer or
on a version mismatch (state untouched), otherwise copy every persisted
field into the state and return 0.  The `daily_history_count` field is
copied without validation, exactly as the C does. -/
def zmk_keystroke_stats_load_persist_data (data : Option PersistData)
    (s : EngineState) : Int × EngineState :=
  match data with
  | none => (-22, s)
  | some d =>
    if d.version ≠ PERSIST_DATA_VERSION then (-22, s)
    else
      (0, { s with
        total_keystrokes := d.total_keystrokes,
        today_keystrokes := d.today_keystrokes,
        yesterday_keystrokes := d.yesterday_keystrokes,
        current_uptime_day := d.current_uptime_day,
        peak_wpm := d.peak_wpm,
        total_typing_time_ms := d.total_typing_time_ms,
        key_counts := d.key_counts,
        daily_history := d.daily_history,
        daily_history_count := d.daily_history_count })

/-! ## Concrete inputs used by witnesses and counterexamples -/

/-- A small concrete configuration used by witnesses. -/
def cfgW : Config :=
  { rolloverHour := 0, wpmWindowMs := 60000, sessionTimeoutMs := 300000,
    maxKeyPositions := 4, topKeysCount := 2, dailyHistoryDays := 3 }

/-- A version-2 snapshot used by the C4 witness. -/
def pdV2 : PersistData :=
  { version := 2, total_keystrokes := 3, today_keystrokes := 1,
    yesterday_keystrokes := 0, current_uptime_day := 0, peak_wpm := 0,
    total_typing_time_ms := 0, key_counts := [7, 0, 0, 0],
    daily_history := List.replicate 3 zeroEntry, daily_history_count := 0 }

/-- A version-1 snapshot whose history count exceeds any small capacity. -/
def pdBadCount : PersistData :=
  { version := 1, total_keystrokes := 10, today_keystrokes := 2,
    yesterday_keystrokes := 1, current_uptime_day := 4, peak_wpm := 0,
    total_typing_time_ms := 0, key_counts := [0, 0, 0, 0],
    daily_history := List.replicate 3 zeroEntry, daily_history_count := 255 }

/-- A state with four registered callbacks, used by the C8 witness. -/
def sFour : EngineState :=
  { keystroke_stats_init cfgW 0 with
    callbacks := [(1, 0), (2, 0), (3, 0), (4, 0)], callback_count := 4 }

/-- Day-truncation input for the C2 counterexample: stored day 300. -/
def sDay300 : EngineState :=
  { keystroke_stats_init cfgW 0 with
    current_uptime_day := 300, today_keystrokes := 7 }

/-! ## Theorems -/

/-- C3 -/
theorem persist_round_trip_exact (s : EngineState) :
    (zmk_keystroke_stats_load_persist_data
        (some (zmk_keystroke_stats_get_persist_data s)) s).1 = 0 ∧
    ((zmk_keystroke_stats_load_persist_data
        (some (zmk_keystroke_stats_get_persist_data s)) s).2.total_keystrokes
        = s.total_keystrokes ∧
      (zmk_keystroke_stats_load_persist_data
        (some (zmk_keystroke_stats_get_persist_data s)) s).2.today_keystrokes
        = s.today_keystrokes ∧
      (zmk_keystroke_stats_load_persist_data
        (some (zmk_keystroke_stats_get_persist_data s)) s).2.yesterday_keystrokes
        = s.yesterday_keystrokes ∧
      (zmk_keystroke_stats_load_persist_data
        (some (zmk_keystroke_stats_get_persist_data s)) s).2.current_uptime_day
        = s.current_uptime_day) := by
  simp [zmk_keystroke_stats_load_persist_data, zmk_keystroke_stats_get_persist_data]

/-- C4 -/
theorem load_version_mismatch_rejected (d : PersistData) (s : EngineState)
    (h : d.version ≠ PERSIST_DATA_VERSION) :
    zmk_keystroke_stats_load_persist_data (some d) s = (-22, s) := by
  simp [zmk_keystroke_stats_load_persist_data, h]

theorem load_version_mismatch_rejected_witness :
    pdV2.version ≠ PERSIST_DATA_VERSION ∧
    zmk_keystroke_stats_load_persist_data (some pdV2) (keystroke_stats_init cfgW 0)
      = (-22, keystroke_stats_init cfgW 0) :=
  ⟨by decide, load_version_mismatch_rejected _ _ (by decide)⟩

/-- C5 -/
theorem reset_semantics (cfg : Config) (now : Nat) (b : Bool) (s : EngineState) :
    (zmk_keystroke_stats_reset cfg now b s).1 = 0 ∧
    (zmk_keystroke_stats_reset cfg now b s).2.total_keystrokes
      = (if b then 0 else s.total_keystrokes) ∧
    (zmk_keystroke_stats_reset cfg now b s).2.today_keystrokes = 0 ∧
    (zmk_keystroke_stats_reset cfg now b s).2.yesterday_keystrokes = 0 ∧
    (zmk_keystroke_stats_reset cfg now b s).2.session_keystrokes = 0 ∧
    (zmk_keystroke_stats_reset cfg now b s).2.current_wpm = 0 ∧
    (zmk_keystroke_stats_reset cfg now b s).2.average_wpm = 0 ∧
    (zmk_keystroke_stats_reset cfg now b s).2.peak_wpm = 0 ∧
    (zmk_keystroke_stats_reset cfg now b s).2.wpm_count = 0 ∧
    (zmk_keystroke_stats_reset cfg now b s).2.wpm_head = 0 ∧
    (zmk_keystroke_stats_reset cfg now b s).2.key_counts
      = List.replicate cfg.maxKeyPositions 0 ∧
    (zmk_keystroke_stats_reset cfg now b s).2.daily_history
      = List.replicate cfg.dailyHistoryDays zeroEntry ∧
    (zmk_keystroke_stats_reset cfg now b s).2.daily_history_count = 0 := by
  cases b <;> simp [zmk_keystroke_stats_reset, schedule_save] <;> split <;> simp

/-- C9 -/
theorem get_is_pure_read (cfg : Config) (s : EngineState) :
    (zmk_keystroke_stats_get cfg false s).1 = 0 ∧
    (zmk_keystroke_stats_get cfg false s).2.1.isSome = true ∧
    (zmk_keystroke_stats_get cfg false s).2.2 = s := by
  simp [zmk_keystroke_stats_get]

/-- C10 -/
theorem load_accepts_oversized_history_count :
    (zmk_keystroke_stats_load_persist_data (some pdBadCount)
        (keystroke_stats_init cfgW 0)).1 = 0 ∧
    cfgW.dailyHistoryDays <
      (zmk_keystroke_stats_load_persist_data (some pdBadCount)
        (keystroke_stats_init cfgW 0)).2.daily_history_count := by
  decide

/-- C8 -/
theorem callback_register_unregister_spec (s : EngineState) (h ud : Nat) :
    (h = 0 → zmk_keystroke_stats_register_callback h ud s = (-22, s)) ∧
    (h ≠ 0 → 4 ≤ s.callback_count →
      zmk_keystroke_stats_register_callback h ud s = (-12, s)) ∧
    (h ≠ 0 → s.callback_count < 4 →
      zmk_keystroke_stats_register_callback h ud s =
        (0, { s with callbacks := s.callbacks ++ [(h, ud)],
                     callback_count := s.callback_count + 1 })) ∧
    (h ∉ s.callbacks.map Prod.fst →
      zmk_keystroke_stats_unregister_callback h s = (-2, s)) ∧
    (h ∈ s.callbacks.map Prod.fst →
      (zmk_keystroke_stats_unregister_callback h s).1 = 0 ∧
      (zmk_keystroke_stats_unregister_callback h s).2.callback_count
        = s.callback_count - 1 ∧
      ∃ pre post ud2, s.callbacks = pre ++ (h, ud2) :: post ∧
        (∀ p ∈ pre, p.1 ≠ h) ∧
        (zmk_keystroke_stats_unregister_callback h s).2.callbacks = pre ++ post) := by
  refine ⟨?_, ?_, ?_, ?_, ?_⟩
  · intro h0
    simp [zmk_keystroke_stats_register_callback, h0]
  · intro h0 hc
    simp [zmk_keystroke_stats_register_callback, h0, Nat.not_lt.mpr hc]
  · intro h0 hc
    have : (s.callback_count + 1) % U8 = s.callback_count + 1 := by
      have : s.callback_count + 1 < 256 := by omega
      simp [U8]
      omega
    simp [zmk_keystroke_stats_register_callback, h0, Nat.not_le.mpr hc, this]
  · intro hmem
    have hany : s.callbacks.any (fun p => p.1 == h) = false := by
      rw [Bool.eq_false_iff]
      intro hcon
      rw [List.any_eq_true] at hcon
      obtain ⟨p, hp, hpe⟩ := hcon
      exact hmem (List.mem_map.mpr ⟨p, hp, by simpa using hpe⟩)
    simp [zmk_keystroke_stats_unregister_callback, hany]
  · intro hmem
    obtain ⟨p, hp, hpf⟩ := List.mem_map.mp hmem
    have hany : s.callbacks.any (fun p => p.1 == h) = true := by
      rw [List.any_eq_true]
      exact ⟨p, hp, by simpa using hpf⟩
    obtain ⟨a, l₁, l₂, hnot, hpa, hsplit, herase⟩ :=
      List.exists_of_eraseP (p := fun p => p.1 == h) hp (by simpa using hpf)
    refine ⟨by simp [zmk_keystroke_stats_unregister_callback, hany],
            by simp [zmk_keystroke_stats_unregister_callback, hany], ?_⟩
    have ha : a.1 = h := by simpa using hpa
    refine ⟨l₁, l₂, a.2, ?_, ?_, ?_⟩
    · rw [hsplit]
      congr 1
      rw [← ha]
    · intro q hq
      have := hnot q hq
      simpa using this
    · simp [zmk_keystroke_stats_unregister_callback, hany, herase]

theorem callback_register_unregister_spec_witness :
    zmk_keystroke_stats_register_callback 5 0 sFour = (-12, sFour) ∧
    zmk_keystroke_stats_unregister_callback 9 sFour = (-2, sFour) ∧
    (zmk_keystroke_stats_unregister_callback 2 sFour).1 = 0 ∧
    (zmk_keystroke_stats_unregister_callback 2 sFour).2.callbacks
      = [(1, 0), (3, 0), (4, 0)] ∧
    (zmk_keystroke_stats_unregister_callback 2 sFour).2.callback_count = 3 := by
  refine ⟨(callback_register_unregister_spec sFour 5 0).2.1 (by decide) (by decide),
          (callback_register_unregister_spec sFour 9 0).2.2.2.1 (by decide),
          ((callback_register_unregister_spec sFour 2 0).2.2.2.2 (by decide)).1,
          by decide,
          ((callback_register_unregister_spec sFour 2 0).2.2.2.2 (by decide)).2.1⟩

theorem take_set_self (l : List α) (n : Nat) (a : α) :
    (l.set n a).take n = l.take n := by
  apply List.ext_getElem?
  intro m
  rw [List.getElem?_take, List.getElem?_take]
  by_cases hm : m < n
  · simp only [if_pos hm]
    rw [List.getElem?_set_ne (by omega)]
  · simp [hm]

theorem shift_from_length (d : α) (lo : Nat) (l : List α) (n : Nat) :
    (shift_from d lo l n).length = l.length := by
  induction n with
  | zero => rfl
  | succ n ih => simp [shift_from, ih]

theorem shift_from_getElem? (d : α) (lo : Nat) (l : List α) (n : Nat)
    (hn : lo + n < l.length) (m : Nat) :
    (shift_from d lo l n)[m]? =
      if lo ≤ m ∧ m < lo + n then l[m + 1]? else l[m]? := by
  induction n generalizing m with
  | zero =>
    simp only [shift_from]
    rw [if_neg (by omega)]
  | succ n ih =>
    have hn' : lo + n < l.length := by omega
    have hlen : (shift_from d lo l n).length = l.length := shift_from_length d lo l n
    simp only [shift_from]
    by_cases hm : m = lo + n
    · subst hm
      rw [List.getElem?_set_self (by omega), if_pos (by omega)]
      rw [List.getD_eq_getElem?_getD, ih hn' (lo + n + 1), if_neg (by omega)]
      rw [List.getElem?_eq_getElem (by omega)]
      rfl
    · rw [List.getElem?_set_ne (by omega), ih hn' m]
      by_cases hin : lo ≤ m ∧ m < lo + n
      · rw [if_pos hin, if_pos (by omega)]
      · rw [if_neg hin, if_neg (by omega)]

theorem shift_evict (l : List α) (d : α) (e : α) (D : Nat)
    (hD : 0 < D) (hlen : l.length = D) :
    (shift_from d 0 l (D - 1)).set (D - 1) e = l.drop 1 ++ [e] := by
  apply List.ext_getElem?
  intro m
  have hlen' : (shift_from d 0 l (D - 1)).length = l.length :=
    shift_from_length d 0 l (D - 1)
  have hd : (l.drop 1).length = D - 1 := by simp [hlen]
  by_cases hm : m = D - 1
  · subst hm
    rw [List.getElem?_set_self (by omega), List.getElem?_append, hd,
        if_neg (by omega), Nat.sub_self]
    rfl
  · rw [List.getElem?_set_ne (by omega),
        shift_from_getElem? d 0 l (D - 1) (by omega) m,
        List.getElem?_append, hd]
    by_cases hlt : m < D - 1
    · rw [if_pos (by omega), if_pos hlt, List.getElem?_drop]
      congr 1
      omega
    · rw [if_neg (by omega), if_neg hlt]
      rw [List.getElem?_eq_none (by omega),
          List.getElem?_eq_none (show ([e] : List α).length ≤ m - (D - 1) by
            simp
            omega)]

/-- C2 (amended) -/
theorem day_rollover_spec (cfg : Config) (now : Nat) (s : EngineState)
    (hlen : s.daily_history.length = cfg.dailyHistoryDays)
    (hcnt : s.daily_history_count ≤ cfg.dailyHistoryDays)
    (hDpos : 0 < cfg.dailyHistoryDays)
    (hD8 : cfg.dailyHistoryDays < U8)
    (hinit : s.initialized = true) :
    (get_uptime_day cfg now = s.current_uptime_day →
      check_day_rollover cfg now s = (s, false)) ∧
    (get_uptime_day cfg now ≠ s.current_uptime_day →
      (check_day_rollover cfg now s).2 = true ∧
      (check_day_rollover cfg now s).1.yesterday_keystrokes = s.today_keystrokes ∧
      (check_day_rollover cfg now s).1.today_keystrokes = 0 ∧
      (check_day_rollover cfg now s).1.current_uptime_day = get_uptime_day cfg now ∧
      (check_day_rollover cfg now s).1.save_pending = true ∧
      (check_day_rollover cfg now s).1.daily_history.length = cfg.dailyHistoryDays ∧
      (s.daily_history_count < cfg.dailyHistoryDays →
        (check_day_rollover cfg now s).1.daily_history_count
          = s.daily_history_count + 1 ∧
        (check_day_rollover cfg now s).1.daily_history.take
            (s.daily_history_count + 1)
          = s.daily_history.take s.daily_history_count
              ++ [⟨0, 0, s.current_uptime_day % U8, s.today_keystrokes⟩]) ∧
      (s.daily_history_count = cfg.dailyHistoryDays →
        (check_day_rollover cfg now s).1.daily_history_count
          = cfg.dailyHistoryDays ∧
        (check_day_rollover cfg now s).1.daily_history
          = s.daily_history.drop 1
              ++ [⟨0, 0, s.current_uptime_day % U8, s.today_keystrokes⟩])) := by
  constructor
  · intro heq
    simp [check_day_rollover, heq]
  · intro hne
    have hne' : ¬ get_uptime_day cfg now = s.current_uptime_day := hne
    by_cases hfull : s.daily_history_count < cfg.dailyHistoryDays
    · have hstep : check_day_rollover cfg now s =
          ({ s with
            daily_history := s.daily_history.set s.daily_history_count
              ⟨0, 0, s.current_uptime_day % U8, s.today_keystrokes⟩,
            daily_history_count := (s.daily_history_count + 1) % U8,
            yesterday_keystrokes := s.today_keystrokes,
            today_keystrokes := 0,
            current_uptime_day := get_uptime_day cfg now,
            save_pending := true }, true) := by
        simp [check_day_rollover, hne', hfull, schedule_save, hinit]
      rw [hstep]
      refine ⟨rfl, rfl, rfl, rfl, rfl, by simp [hlen], ?_, by omega⟩
      intro _
      have h256 : cfg.dailyHistoryDays < 256 := hD8
      constructor
      · simp only [U8]
        omega
      · simp only
        rw [List.take_succ, take_set_self,
            List.getElem?_set_self (by omega)]
        rfl
    · have hfeq : s.daily_history_count = cfg.dailyHistoryDays := by omega
      have hstep : check_day_rollover cfg now s =
          ({ s with
            daily_history := (shift_from zeroEntry 0 s.daily_history
                (cfg.dailyHistoryDays - 1)).set (cfg.dailyHistoryDays - 1)
              ⟨0, 0, s.current_uptime_day % U8, s.today_keystrokes⟩,
            yesterday_keystrokes := s.today_keystrokes,
            today_keystrokes := 0,
            current_uptime_day := get_uptime_day cfg now,
            save_pending := true }, true) := by
        simp [check_day_rollover, hne', hfull, schedule_save, hinit]
      rw [hstep]
      refine ⟨rfl, rfl, rfl, rfl, rfl, ?_, by omega, ?_⟩
      · simp only
        rw [shift_evict _ _ _ _ hDpos hlen]
        simp [hlen]
        omega
      · intro _
        exact ⟨hfeq ▸ rfl, shift_evict _ _ _ _ hDpos hlen⟩

theorem day_rollover_day_field_truncated :
    get_uptime_day cfgW 0 ≠ sDay300.current_uptime_day ∧
    (check_day_rollover cfgW 0 sDay300).1.daily_history_count = 1 ∧
    ((check_day_rollover cfgW 0 sDay300).1.daily_history.getD 0 zeroEntry).keystrokes
      = sDay300.today_keystrokes ∧
    ((check_day_rollover cfgW 0 sDay300).1.daily_history.getD 0 zeroEntry).day
      ≠ sDay300.current_uptime_day := by
  decide

theorem day_rollover_spec_witness :
    (sDay300.daily_history.length = cfgW.dailyHistoryDays ∧
      sDay300.daily_history_count ≤ cfgW.dailyHistoryDays ∧
      0 < cfgW.dailyHistoryDays ∧ cfgW.dailyHistoryDays < U8 ∧
      sDay300.initialized = true ∧
      get_uptime_day cfgW 0 ≠ sDay300.current_uptime_day) ∧
    ((check_day_rollover cfgW 0 sDay300).2 = true ∧
      (check_day_rollover cfgW 0 sDay300).1.yesterday_keystrokes
        = sDay300.today_keystrokes) := by
  refine ⟨⟨by decide, by decide, by decide, by decide, by decide, by decide⟩, ?_⟩
  have T := (day_rollover_spec cfgW 0 sDay300 (by decide) (by decide) (by decide)
    (by decide) (by decide)).2 (by decide)
  exact ⟨T.1, T.2.1⟩

theorem check_session_timeout_counters (cfg : Config) (now : Nat) (s : EngineState) :
    (check_session_timeout cfg now s).total_keystrokes = s.total_keystrokes ∧
    (check_session_timeout cfg now s).today_keystrokes = s.today_keystrokes ∧
    (check_session_timeout cfg now s).yesterday_keystrokes = s.yesterday_keystrokes ∧
    (check_session_timeout cfg now s).current_uptime_day = s.current_uptime_day := by
  dsimp only [check_session_timeout]
  split <;> exact ⟨rfl, rfl, rfl, rfl⟩

theorem cst_total (cfg : Config) (now : Nat) (s : EngineState) :
    (check_session_timeout cfg now s).total_keystrokes = s.total_keystrokes :=
  (check_session_timeout_counters cfg now s).1

theorem cst_today (cfg : Config) (now : Nat) (s : EngineState) :
    (check_session_timeout cfg now s).today_keystrokes = s.today_keystrokes :=
  (check_session_timeout_counters cfg now s).2.1

theorem cst_yesterday (cfg : Config) (now : Nat) (s : EngineState) :
    (check_session_timeout cfg now s).yesterday_keystrokes = s.yesterday_keystrokes :=
  (check_session_timeout_counters cfg now s).2.2.1

theorem cst_day (cfg : Config) (now : Nat) (s : EngineState) :
    (check_session_timeout cfg now s).current_uptime_day = s.current_uptime_day :=
  (check_session_timeout_counters cfg now s).2.2.2

theorem update_wpm_counters (cfg : Config) (now : Nat) (s : EngineState) :
    (update_wpm cfg now s).total_keystrokes = s.total_keystrokes ∧
    (update_wpm cfg now s).today_keystrokes = s.today_keystrokes ∧
    (update_wpm cfg now s).yesterday_keystrokes = s.yesterday_keystrokes ∧
    (update_wpm cfg now s).current_uptime_day = s.current_uptime_day := by
  dsimp only [update_wpm]
  repeat' split
  all_goals exact ⟨rfl, rfl, rfl, rfl⟩

theorem check_day_rollover_same (cfg : Config) (now : Nat) (s : EngineState)
    (h : get_uptime_day cfg now = s.current_uptime_day) :
    check_day_rollover cfg now s = (s, false) := by
  simp [check_day_rollover, h]

theorem listener_mid_counters (cfg : Config) (now pos : Nat) (sA : EngineState) :
    (listener_mid cfg now pos sA).total_keystrokes = sA.total_keystrokes ∧
    (listener_mid cfg now pos sA).today_keystrokes = sA.today_keystrokes ∧
    (listener_mid cfg now pos sA).yesterday_keystrokes = sA.yesterday_keystrokes ∧
    (listener_mid cfg now pos sA).current_uptime_day = sA.current_uptime_day := by
  dsimp only [listener_mid]
  repeat' split
  all_goals
    exact ⟨cst_total cfg now sA, cst_today cfg now sA,
           cst_yesterday cfg now sA, cst_day cfg now sA⟩

theorem listener_tail (cfg : Config) (now : Nat) (x : EngineState)
    (hday : get_uptime_day cfg now = x.current_uptime_day) :
    (check_day_rollover cfg now (update_wpm cfg now x)).1.total_keystrokes
      = x.total_keystrokes ∧
    (check_day_rollover cfg now (update_wpm cfg now x)).1.today_keystrokes
      = x.today_keystrokes ∧
    (check_day_rollover cfg now (update_wpm cfg now x)).1.yesterday_keystrokes
      = x.yesterday_keystrokes ∧
    (check_day_rollover cfg now (update_wpm cfg now x)).1.current_uptime_day
      = x.current_uptime_day := by
  obtain ⟨u1, u2, u3, u4⟩ := update_wpm_counters cfg now x
  rw [check_day_rollover_same cfg now _ (by rw [u4, hday])]
  exact ⟨u1, u2, u3, u4⟩

theorem listener_press_counters (cfg : Config) (now pos : Nat) (s : EngineState)
    (hday : get_uptime_day cfg now = s.current_uptime_day)
    (hT : s.total_keystrokes + 1 < U32) (hTd : s.today_keystrokes + 1 < U32) :
    (keystroke_event_listener cfg now true pos s).1.total_keystrokes
      = s.total_keystrokes + 1 ∧
    (keystroke_event_listener cfg now true pos s).1.today_keystrokes
      = s.today_keystrokes + 1 ∧
    (keystroke_event_listener cfg now true pos s).1.yesterday_keystrokes
      = s.yesterday_keystrokes ∧
    (keystroke_event_listener cfg now true pos s).1.current_uptime_day
      = s.current_uptime_day := by
  obtain ⟨m1, m2, m3, m4⟩ := listener_mid_counters cfg now pos
    { s with
      total_keystrokes := (s.total_keystrokes + 1) % U32,
      today_keystrokes := (s.today_keystrokes + 1) % U32 }
  obtain ⟨t1, t2, t3, t4⟩ := listener_tail cfg now
    (listener_mid cfg now pos
      { s with
        total_keystrokes := (s.total_keystrokes + 1) % U32,
        today_keystrokes := (s.today_keystrokes + 1) % U32 })
    (by rw [m4]; exact hday)
  unfold keystroke_event_listener
  rw [if_neg (by decide)]
  dsimp only
  rw [t1, t2, t3, t4, m1, m2, m3, m4]
  exact ⟨Nat.mod_eq_of_lt hT, Nat.mod_eq_of_lt hTd, rfl, rfl⟩

theorem process_pressed_counters (cfg : Config) (evs : List (Nat × Nat)) :
    ∀ s : EngineState,
      (∀ ev ∈ evs, get_uptime_day cfg ev.1 = s.current_uptime_day) →
      s.total_keystrokes + evs.length < U32 →
      s.today_keystrokes + evs.length < U32 →
      (process_events cfg (evs.map fun ev => (ev.1, true, ev.2)) s).total_keystrokes
          = s.total_keystrokes + evs.length ∧
        (process_events cfg (evs.map fun ev => (ev.1, true, ev.2)) s).today_keystrokes
          = s.today_keystrokes + evs.length ∧
        (process_events cfg (evs.map fun ev => (ev.1, true, ev.2)) s).yesterday_keystrokes
          = s.yesterday_keystrokes ∧
        (process_events cfg (evs.map fun ev => (ev.1, true, ev.2)) s).current_uptime_day
          = s.current_uptime_day := by
  induction evs with
  | nil =>
    intro s _ _ _
    simp [process_events]
  | cons ev evs ih =>
    intro s hday hT hTd
    obtain ⟨p1, p2, p3, p4⟩ := listener_press_counters cfg ev.1 ev.2 s
      (hday ev (List.mem_cons_self ev evs)) (by simp at hT; omega) (by simp at hTd; omega)
    have hstep :
        process_events cfg ((ev :: evs).map fun e => (e.1, true, e.2)) s
          = process_events cfg (evs.map fun e => (e.1, true, e.2))
              (keystroke_event_listener cfg ev.1 true ev.2 s).1 := rfl
    obtain ⟨q1, q2, q3, q4⟩ := ih (keystroke_event_listener cfg ev.1 true ev.2 s).1
      (by
        intro e he
        rw [p4]
        exact hday e (List.mem_cons_of_mem ev he))
      (by rw [p1]; simp at hT; omega)
      (by rw [p2]; simp at hTd; omega)
    rw [hstep, q1, q2, q3, q4, p1, p2, p3, p4]
    refine ⟨by simp; omega, by simp; omega, rfl, rfl⟩

/-- C1 -/
theorem fresh_press_sequence_counts (cfg : Config) (t0 : Nat)
    (evs : List (Nat × Nat))
    (hday : ∀ ev ∈ evs, get_uptime_day cfg ev.1 = get_uptime_day cfg t0)
    (hN : evs.length < U32) :
    ((process_events cfg (evs.map fun ev => (ev.1, true, ev.2))
          (keystroke_stats_init cfg t0)).total_keystrokes = evs.length ∧
      (process_events cfg (evs.map fun ev => (ev.1, true, ev.2))
          (keystroke_stats_init cfg t0)).today_keystrokes = evs.length ∧
      (process_events cfg (evs.map fun ev => (ev.1, true, ev.2))
          (keystroke_stats_init cfg t0)).yesterday_keystrokes = 0) ∧
    (∀ (now pos : Nat) (s : EngineState),
      keystroke_event_listener cfg now false pos s = (s, false)) := by
  constructor
  · obtain ⟨q1, q2, q3, _⟩ := process_pressed_counters cfg evs
      (keystroke_stats_init cfg t0) (by intro e he; exact hday e he)
      (by simpa [keystroke_stats_init] using hN)
      (by simpa [keystroke_stats_init] using hN)
    refine ⟨by rw [q1]; simp [keystroke_stats_init],
            by rw [q2]; simp [keystroke_stats_init],
            by rw [q3]; rfl⟩
  · intro now pos s
    rfl

theorem fresh_press_sequence_counts_witness :
    ((∀ ev ∈ [((5 : Nat), (0 : Nat)), (6, 1), (7, 0)],
        get_uptime_day cfgW ev.1 = get_uptime_day cfgW 0) ∧
      ([((5 : Nat), (0 : Nat)), (6, 1), (7, 0)] : List (Nat × Nat)).length < U32) ∧
    ((process_events cfgW [(5, true, 0), (6, true, 1), (7, true, 0)]
          (keystroke_stats_init cfgW 0)).total_keystrokes = 3 ∧
      (process_events cfgW [(5, true, 0), (6, true, 1), (7, true, 0)]
          (keystroke_stats_init cfgW 0)).today_keystrokes = 3 ∧
      (process_events cfgW [(5, true, 0), (6, true, 1), (7, true, 0)]
          (keystroke_stats_init cfgW 0)).yesterday_keystrokes = 0) ∧
    keystroke_event_listener cfgW 9 false 2 (keystroke_stats_init cfgW 0)
      = (keystroke_stats_init cfgW 0, false) := by
  have T := fresh_press_sequence_counts cfgW 0 [(5, 0), (6, 1), (7, 0)]
    (by decide) (by decide)
  exact ⟨⟨by decide, by decide⟩, T.1, T.2 9 2 (keystroke_stats_init cfgW 0)⟩

/-! C7 helper lemmas -/

theorem u32sub_of_le (a b : Nat) (hb : b ≤ a) (ha : a < U32) :
    u32sub a b = a - b := by
  simp only [u32sub, U32] at *
  omega

theorem getD_set_eq (l : List Nat) (i : Nat) (v d : Nat) (h : i < l.length) :
    (l.set i v).getD i d = v := by
  rw [List.getD_eq_getElem?_getD, List.getElem?_set_self h]
  rfl

theorem getD_set_ne (l : List Nat) (i j : Nat) (v d : Nat) (h : i ≠ j) :
    (l.set i v).getD j d = l.getD j d := by
  rw [List.getD_eq_getElem?_getD, List.getElem?_set_ne h,
      ← List.getD_eq_getElem?_getD]

theorem sum_map_ones (f : Nat → Nat) (Q : List Nat) (h : ∀ i ∈ Q, f i = 1) :
    (Q.map f).sum = Q.length := by
  induction Q with
  | nil => rfl
  | cons q Q ih =>
    simp only [List.map_cons, List.sum_cons, List.length_cons,
      h q (List.mem_cons_self q Q)]
    rw [ih (fun i hi => h i (List.mem_cons_of_mem q hi))]
    omega

theorem foldl_min_le_init (g : Nat → Nat) (Q : List Nat) :
    ∀ a, Q.foldl (fun x i => min x (g i)) a ≤ a := by
  induction Q with
  | nil => intro a; exact Nat.le_refl a
  | cons q Q ih =>
    intro a
    exact Nat.le_trans (ih (min a (g q))) (Nat.min_le_left _ _)

theorem le_foldl_min (g : Nat → Nat) (Q : List Nat) (b : Nat) :
    ∀ a, b ≤ a → (∀ i ∈ Q, b ≤ g i) → b ≤ Q.foldl (fun x i => min x (g i)) a := by
  induction Q with
  | nil => intro a ha _; exact ha
  | cons q Q ih =>
    intro a ha hQ
    refine ih (min a (g q)) (Nat.le_min.mpr ⟨ha, hQ q (List.mem_cons_self q Q)⟩) ?_
    intro i hi
    exact hQ i (List.mem_cons_of_mem q hi)

theorem wpm_scan_spec (W now : Nat) (ts ks : List Nat) (n : Nat)
    (hnow : now < U32) (hn : n < U32)
    (hts : ∀ i < n, ts.getD i 0 ≤ now)
    (hks : ∀ i < n, ks.getD i 0 = 1) :
    wpm_scan W now ts ks n =
      (((List.range n).filter (fun i => now - ts.getD i 0 ≤ W)).length,
       ((List.range n).filter (fun i => now - ts.getD i 0 ≤ W)).foldl
         (fun a i => min a (ts.getD i 0)) now) := by
  induction n with
  | zero =>
    simp [wpm_scan, Nat.mod_eq_of_lt hnow]
  | succ n ih =>
    have hlen : ((List.range n).filter (fun i => now - ts.getD i 0 ≤ W)).length ≤ n := by
      calc ((List.range n).filter (fun i => now - ts.getD i 0 ≤ W)).length
          ≤ (List.range n).length := List.length_filter_le _ _
        _ = n := List.length_range n
    have ihs := ih (by omega) (fun i hi => hts i (by omega))
      (fun i hi => hks i (by omega))
    simp only [wpm_scan, ihs]
    rw [u32sub_of_le now (ts.getD n 0) (hts n (Nat.lt_succ_self n)) hnow]
    rw [List.range_succ, List.filter_append]
    by_cases hq : now - ts.getD n 0 ≤ W
    · rw [if_pos hq]
      rw [List.filter_cons_of_pos (by simpa using hq), List.filter_nil]
      rw [List.foldl_append, List.length_append, List.foldl_cons, List.foldl_nil]
      simp only [Prod.mk.injEq]
      refine ⟨?_, ?_⟩
      · rw [hks n (Nat.lt_succ_self n)]
        simp only [List.length_cons, List.length_nil]
        rw [Nat.mod_eq_of_lt (by omega)]
      · rw [Nat.min_def]
        split <;> split <;> omega
    · rw [if_neg hq]
      rw [List.filter_cons_of_neg (by simpa using hq), List.filter_nil,
          List.append_nil]

/-- C7 -/
theorem update_wpm_spec (cfg : Config) (now : Nat) (s : EngineState)
    (h1 : s.wpm_timestamps.length = 10) (h2 : s.wpm_keystrokes.length = 10)
    (h3 : s.wpm_head < 10) (h4 : s.wpm_count ≤ 10)
    (h5 : s.wpm_count < 10 → s.wpm_head = s.wpm_count)
    (h6 : ∀ i < s.wpm_count, s.wpm_timestamps.getD i 0 ≤ now)
    (h7 : ∀ i < s.wpm_count, s.wpm_keystrokes.getD i 0 = 1)
    (h8 : now < U32) (h9 : cfg.wpmWindowMs * 5 < U32) :
    let ts := s.wpm_timestamps.set s.wpm_head now
    let ks := s.wpm_keystrokes.set s.wpm_head 1
    let count := if s.wpm_count < 10 then s.wpm_count + 1 else s.wpm_count
    let qualifying := (List.range count).filter
      (fun i => now - ts.getD i 0 ≤ cfg.wpmWindowMs)
    let oldest := qualifying.foldl (fun a i => min a (ts.getD i 0)) now
    let elapsed := now - oldest
    (update_wpm cfg now s).wpm_timestamps = ts ∧
    (update_wpm cfg now s).wpm_keystrokes = ks ∧
    (update_wpm cfg now s).wpm_head = (s.wpm_head + 1) % 10 ∧
    (update_wpm cfg now s).wpm_count = count ∧
    qualifying ≠ [] ∧
    (update_wpm cfg now s).current_wpm =
      (if elapsed = 0 then 0
       else min (((qualifying.map (fun i => ks.getD i 0)).sum * 60000)
           / (elapsed * 5)) 255) ∧
    (update_wpm cfg now s).current_wpm ≤ 255 ∧
    (update_wpm cfg now s).peak_wpm
      = max s.peak_wpm (update_wpm cfg now s).current_wpm := by
  intro ts ks count qualifying oldest elapsed
  have hnmod : now % U32 = now := Nat.mod_eq_of_lt h8
  have hWlt : cfg.wpmWindowMs < U32 := by omega
  have hcle : count ≤ 10 := by dsimp only [count]; split <;> omega
  have hts : ∀ i < count, ts.getD i 0 ≤ now := by
    intro i hi
    by_cases hih : i = s.wpm_head
    · subst hih
      rw [getD_set_eq _ _ _ _ (by omega)]
    · rw [getD_set_ne _ _ _ _ _ (fun h => hih h.symm)]
      refine h6 i ?_
      dsimp only [count] at hi
      by_cases hc : s.wpm_count < 10
      · rw [if_pos hc] at hi
        have := h5 hc
        omega
      · rw [if_neg hc] at hi
        omega
  have hks : ∀ i < count, ks.getD i 0 = 1 := by
    intro i hi
    by_cases hih : i = s.wpm_head
    · subst hih
      rw [getD_set_eq _ _ _ _ (by omega)]
    · rw [getD_set_ne _ _ _ _ _ (fun h => hih h.symm)]
      refine h7 i ?_
      dsimp only [count] at hi
      by_cases hc : s.wpm_count < 10
      · rw [if_pos hc] at hi
        have := h5 hc
        omega
      · rw [if_neg hc] at hi
        omega
  have hscan : wpm_scan cfg.wpmWindowMs now ts ks count =
      (qualifying.length, oldest) :=
    wpm_scan_spec cfg.wpmWindowMs now ts ks count h8 (by simp only [U32]; omega) hts hks
  have hQhead : s.wpm_head ∈ qualifying := by
    dsimp only [qualifying]
    rw [List.mem_filter]
    refine ⟨List.mem_range.mpr ?_, ?_⟩
    · dsimp only [count]
      by_cases hc : s.wpm_count < 10
      · rw [if_pos hc]
        have := h5 hc
        omega
      · rw [if_neg hc]
        omega
    · rw [getD_set_eq _ _ _ _ (by omega)]
      simp
  have hQne : qualifying ≠ [] := fun hemp => by
    rw [hemp] at hQhead
    exact List.not_mem_nil _ hQhead
  have hQlen : 0 < qualifying.length := List.length_pos.mpr hQne
  have hQlen10 : qualifying.length ≤ 10 := by
    dsimp only [qualifying]
    calc ((List.range count).filter _).length
        ≤ (List.range count).length := List.length_filter_le _ _
      _ = count := List.length_range count
      _ ≤ 10 := hcle
  have hold_le : oldest ≤ now := foldl_min_le_init _ _ now
  have hold_ge : now - cfg.wpmWindowMs ≤ oldest := by
    refine le_foldl_min _ _ _ now (by omega) ?_
    intro i hi
    dsimp only [qualifying] at hi
    rw [List.mem_filter] at hi
    have := of_decide_eq_true hi.2
    omega
  have helap : elapsed ≤ cfg.wpmWindowMs := by
    dsimp only [elapsed]
    omega
  have hsum : (qualifying.map (fun i => ks.getD i 0)).sum = qualifying.length := by
    refine sum_map_ones _ _ ?_
    intro i hi
    refine hks i ?_
    dsimp only [qualifying] at hi
    rw [List.mem_filter] at hi
    exact List.mem_range.mp hi.1
  have hpeak : ∀ cur : Nat,
      (if s.peak_wpm < cur then cur else s.peak_wpm) = max s.peak_wpm cur := by
    intro cur
    rw [Nat.max_def]
    split <;> split <;> omega
  have hmain : ∃ avg, update_wpm cfg now s =
      { s with
        wpm_timestamps := ts, wpm_keystrokes := ks,
        wpm_head := (s.wpm_head + 1) % 10, wpm_count := count,
        average_wpm := avg,
        current_wpm :=
          (if elapsed = 0 then 0
           else min ((qualifying.length * 60000) / (elapsed * 5)) 255),
        peak_wpm :=
          max s.peak_wpm
            (if elapsed = 0 then 0
             else min ((qualifying.length * 60000) / (elapsed * 5)) 255) } := by
    unfold update_wpm
    dsimp only
    rw [hnmod]
    unfold ts ks count at hscan
    rw [hscan]
    dsimp only
    unfold count
    rw [u32sub_of_le now oldest hold_le h8]
    by_cases hz : elapsed = 0
    · unfold elapsed at hz
      rw [hz, if_neg (show ¬(0 < 0 ∧ 0 < qualifying.length) from
        fun hc => absurd hc.1 (lt_irrefl 0))]
      have hcur : (if elapsed = 0 then (0 : Nat)
          else min ((qualifying.length * 60000) / (elapsed * 5)) 255) = 0 := by
        unfold elapsed
        rw [if_pos hz]
      rw [hcur, Nat.max_zero]
      repeat' split
      all_goals exact ⟨_, rfl⟩
    · unfold elapsed at hz
      rw [if_pos (show 0 < now - oldest ∧ 0 < qualifying.length from
        ⟨Nat.pos_of_ne_zero hz, hQlen⟩)]
      rw [Nat.mod_eq_of_lt (show qualifying.length * 60000 < U32 by
        simp only [U32]
        omega)]
      rw [Nat.mod_eq_of_lt (show (now - oldest) * 5 < U32 from
        lt_of_le_of_lt (Nat.mul_le_mul_right 5 helap) h9)]
      have hcur : (if elapsed = 0 then (0 : Nat)
          else min ((qualifying.length * 60000) / (elapsed * 5)) 255)
          = min ((qualifying.length * 60000) / ((now - oldest) * 5)) 255 := by
        unfold elapsed
        rw [if_neg hz]
      rw [hcur, hpeak]
      repeat' split
      all_goals exact ⟨_, rfl⟩
  obtain ⟨avg, heq⟩ := hmain
  rw [heq]
  refine ⟨rfl, rfl, rfl, rfl, hQne, ?_, ?_, rfl⟩
  · dsimp only
    rw [hsum]
  · dsimp only
    split
    · omega
    · exact Nat.min_le_right _ _

theorem update_wpm_spec_witness :
    ((keystroke_stats_init cfgW 0).wpm_timestamps.length = 10 ∧
      (keystroke_stats_init cfgW 0).wpm_head < 10 ∧
      (100 : Nat) < U32 ∧ cfgW.wpmWindowMs * 5 < U32) ∧
    (update_wpm cfgW 100 (keystroke_stats_init cfgW 0)).wpm_head = 1 ∧
    (update_wpm cfgW 100 (keystroke_stats_init cfgW 0)).wpm_count = 1 ∧
    (update_wpm cfgW 100 (keystroke_stats_init cfgW 0)).current_wpm ≤ 255 := by
  have T := update_wpm_spec cfgW 100 (keystroke_stats_init cfgW 0)
    (by decide) (by decide) (by decide) (by decide) (by decide) (by decide)
    (by decide) (by decide) (by decide)
  exact ⟨⟨by decide, by decide, by decide, by decide⟩,
    T.2.2.1, T.2.2.2.1, T.2.2.2.2.2.2.1⟩

/-! C6 helper lemmas: the selection loop of `zmk_keystroke_stats_get` -/

theorem getD_set_eq' {α : Type} (l : List α) (i : Nat) (v d : α)
    (h : i < l.length) : (l.set i v).getD i d = v := by
  rw [List.getD_eq_getElem?_getD, List.getElem?_set_self h]
  rfl

theorem getD_set_ne' {α : Type} (l : List α) (i j : Nat) (v d : α)
    (h : i ≠ j) : (l.set i v).getD j d = l.getD j d := by
  rw [List.getD_eq_getElem?_getD, List.getElem?_set_ne h,
      ← List.getD_eq_getElem?_getD]

theorem cons_set_swap_perm (t : List (Nat × Nat)) (j : Nat) (x d : Nat × Nat)
    (hj : j < t.length) :
    List.Perm (t.getD j d :: t.set j x) (x :: t) := by
  induction t generalizing j with
  | nil => simp at hj
  | cons a t ih =>
    cases j with
    | zero =>
      show List.Perm (a :: x :: t) (x :: a :: t)
      exact List.Perm.swap x a t
    | succ j =>
      show List.Perm (t.getD j d :: a :: t.set j x) (x :: a :: t)
      exact (List.Perm.swap a (t.getD j d) (t.set j x)).trans
        ((List.Perm.cons a (ih j (by simpa using hj))).trans
          (List.Perm.swap x a t))

theorem swap_set_perm (l : List (Nat × Nat)) (i j : Nat) (d : Nat × Nat)
    (hij : i < j) (hj : j < l.length) :
    List.Perm ((l.set i (l.getD j d)).set j (l.getD i d)) l := by
  induction l generalizing i j with
  | nil => simp at hj
  | cons a t ih =>
    cases i with
    | zero =>
      obtain ⟨j', rfl⟩ : ∃ j', j = j' + 1 := ⟨j - 1, by omega⟩
      show List.Perm (t.getD j' d :: t.set j' a) (a :: t)
      exact cons_set_swap_perm t j' a d (by simpa using hj)
    | succ i =>
      obtain ⟨j', rfl⟩ : ∃ j', j = j' + 1 := ⟨j - 1, by omega⟩
      show List.Perm (a :: (t.set i (t.getD j' d)).set j' (t.getD i d)) (a :: t)
      exact List.Perm.cons a (ih i j' (by omega) (by simpa using hj))

theorem swap_set_drop_perm (d : Nat × Nat) :
    ∀ (m : Nat) (l : List (Nat × Nat)) (i j : Nat), m ≤ i → i < j →
      j < l.length →
      List.Perm (((l.set i (l.getD j d)).set j (l.getD i d)).drop m)
        (l.drop m)
  | 0, l, i, j, _, hij, hj => by
    simpa using swap_set_perm l i j d hij hj
  | m + 1, [], i, j, _, _, hj => by simp at hj
  | m + 1, a :: t, i, j, hmi, hij, hj => by
    obtain ⟨i', rfl⟩ : ∃ i', i = i' + 1 := ⟨i - 1, by omega⟩
    obtain ⟨j', rfl⟩ : ∃ j', j = j' + 1 := ⟨j - 1, by omega⟩
    show List.Perm
      (((t.set i' (t.getD j' d)).set j' (t.getD i' d)).drop m) (t.drop m)
    exact swap_set_drop_perm d m t i' j' (by omega) (by omega) (by simpa using hj)

theorem sel_step_length (l : List (Nat × Nat)) (i j : Nat) :
    (sel_step l i j).length = l.length := by
  unfold sel_step
  split
  · simp
  · rfl

theorem sel_step_perm (l : List (Nat × Nat)) (i j : Nat)
    (hij : i < j) (hj : j < l.length) :
    List.Perm (sel_step l i j) l := by
  unfold sel_step
  split
  · exact swap_set_perm l i j (0, 0) hij hj
  · exact List.Perm.refl l

theorem sel_step_drop_perm (l : List (Nat × Nat)) (m i j : Nat)
    (hmi : m ≤ i) (hij : i < j) (hj : j < l.length) :
    List.Perm ((sel_step l i j).drop m) (l.drop m) := by
  unfold sel_step
  split
  · exact swap_set_drop_perm (0, 0) m l i j hmi hij hj
  · exact List.Perm.refl _

theorem sel_step_take (l : List (Nat × Nat)) (m i j : Nat)
    (hmi : m ≤ i) (hij : i < j) :
    (sel_step l i j).take m = l.take m := by
  unfold sel_step
  split
  · rcases Nat.lt_or_ge m i with hm | hm
    · rw [List.take_set_of_lt _ _ (by omega), List.take_set_of_lt _ _ hm]
    · have hmi' : m = i := by omega
      subst hmi'
      rw [List.take_set_of_lt _ _ (by omega), take_set_self]
  · rfl

theorem sel_step_getD_untouched (l : List (Nat × Nat)) (m i j : Nat)
    (hmi : m ≠ i) (hmj : m ≠ j) :
    (sel_step l i j).getD m (0, 0) = l.getD m (0, 0) := by
  unfold sel_step
  split
  · rw [getD_set_ne' _ _ _ _ _ (fun h => hmj h.symm),
        getD_set_ne' _ _ _ _ _ (fun h => hmi h.symm)]
  · rfl

theorem sel_step_getD_i_ge (l : List (Nat × Nat)) (i j : Nat)
    (hij : i < j) (hj : j < l.length) :
    (l.getD i (0, 0)).2 ≤ ((sel_step l i j).getD i (0, 0)).2 := by
  unfold sel_step
  split
  · rw [getD_set_ne' _ _ _ _ _ (by omega), getD_set_eq' _ _ _ _ (by omega)]
    omega
  · exact Nat.le_refl _

theorem sel_step_max_j (l : List (Nat × Nat)) (i j : Nat)
    (hij : i < j) (hj : j < l.length) :
    ((sel_step l i j).getD j (0, 0)).2 ≤ ((sel_step l i j).getD i (0, 0)).2 := by
  unfold sel_step
  split
  · rw [getD_set_eq' _ _ _ _ (by rw [List.length_set]; omega),
        getD_set_ne' _ _ _ _ _ (by omega),
        getD_set_eq' _ _ _ _ (by omega)]
    omega
  · omega

theorem sel_scan_length (i : Nat) :
    ∀ (js : List Nat) (l : List (Nat × Nat)),
      (sel_scan i l js).length = l.length
  | [], l => rfl
  | j :: js, l => by
    rw [sel_scan, sel_scan_length i js (sel_step l i j), sel_step_length]

theorem sel_scan_perm (i : Nat) :
    ∀ (js : List Nat) (l : List (Nat × Nat)),
      (∀ j ∈ js, i < j ∧ j < l.length) →
      List.Perm (sel_scan i l js) l
  | [], l, _ => List.Perm.refl l
  | j :: js, l, hb => by
    rw [sel_scan]
    have hj := hb j (List.mem_cons_self j js)
    refine (sel_scan_perm i js (sel_step l i j) ?_).trans
      (sel_step_perm l i j hj.1 hj.2)
    intro j' hj'
    have := hb j' (List.mem_cons_of_mem j hj')
    rw [sel_step_length]
    exact this

theorem sel_scan_take (i m : Nat) (hmi : m ≤ i) :
    ∀ (js : List Nat) (l : List (Nat × Nat)),
      (∀ j ∈ js, i < j) →
      (sel_scan i l js).take m = l.take m
  | [], l, _ => rfl
  | j :: js, l, hb => by
    rw [sel_scan,
        sel_scan_take i m hmi js (sel_step l i j)
          (fun j' hj' => hb j' (List.mem_cons_of_mem j hj')),
        sel_step_take l m i j hmi (hb j (List.mem_cons_self j js))]

theorem sel_scan_drop_perm (i m : Nat) (hmi : m ≤ i) :
    ∀ (js : List Nat) (l : List (Nat × Nat)),
      (∀ j ∈ js, i < j ∧ j < l.length) →
      List.Perm ((sel_scan i l js).drop m) (l.drop m)
  | [], l, _ => List.Perm.refl _
  | j :: js, l, hb => by
    rw [sel_scan]
    have hj := hb j (List.mem_cons_self j js)
    refine (sel_scan_drop_perm i m hmi js (sel_step l i j) ?_).trans
      (sel_step_drop_perm l m i j hmi hj.1 hj.2)
    intro j' hj'
    have := hb j' (List.mem_cons_of_mem j hj')
    rw [sel_step_length]
    exact this

theorem sel_scan_getD_i_ge (i : Nat) :
    ∀ (js : List Nat) (l : List (Nat × Nat)),
      (∀ j ∈ js, i < j ∧ j < l.length) →
      (l.getD i (0, 0)).2 ≤ ((sel_scan i l js).getD i (0, 0)).2
  | [], l, _ => Nat.le_refl _
  | j :: js, l, hb => by
    rw [sel_scan]
    have hj := hb j (List.mem_cons_self j js)
    refine Nat.le_trans (sel_step_getD_i_ge l i j hj.1 hj.2)
      (sel_scan_getD_i_ge i js (sel_step l i j) ?_)
    intro j' hj'
    have := hb j' (List.mem_cons_of_mem j hj')
    rw [sel_step_length]
    exact this

theorem sel_scan_getD_untouched (i m : Nat) (hmi : m ≠ i) :
    ∀ (js : List Nat) (l : List (Nat × Nat)), m ∉ js →
      (sel_scan i l js).getD m (0, 0) = l.getD m (0, 0)
  | [], l, _ => rfl
  | j :: js, l, hm => by
    rw [sel_scan,
        sel_scan_getD_untouched i m hmi js (sel_step l i j)
          (fun hc => hm (List.mem_cons_of_mem j hc)),
        sel_step_getD_untouched l m i j hmi
          (fun hc => hm (hc ▸ List.mem_cons_self j js))]

theorem sel_scan_max (i : Nat) :
    ∀ (js : List Nat) (l : List (Nat × Nat)), js.Nodup →
      (∀ j ∈ js, i < j ∧ j < l.length) →
      ∀ j ∈ js,
        ((sel_scan i l js).getD j (0, 0)).2 ≤ ((sel_scan i l js).getD i (0, 0)).2
  | [], l, _, _ => by intro j hj; simp at hj
  | j0 :: js, l, hnd, hb => by
    intro j hj
    rw [sel_scan]
    have hj0 := hb j0 (List.mem_cons_self j0 js)
    have hb' : ∀ j' ∈ js, i < j' ∧ j' < (sel_step l i j0).length := by
      intro j' hj'
      rw [sel_step_length]
      exact hb j' (List.mem_cons_of_mem j0 hj')
    rcases List.mem_cons.mp hj with hjeq | hjmem
    · subst hjeq
      rw [sel_scan_getD_untouched i j (by omega) js (sel_step l i j)
        (List.nodup_cons.mp hnd).1]
      exact Nat.le_trans (sel_step_max_j l i j hj0.1 hj0.2)
        (sel_scan_getD_i_ge i js (sel_step l i j) hb')
    · exact sel_scan_max i js (sel_step l i j0) (List.nodup_cons.mp hnd).2
        hb' j hjmem

theorem getD_eq_getElem {α : Type} (l : List α) (n : Nat) (d : α)
    (h : n < l.length) : l.getD n d = l[n] := by
  rw [List.getD_eq_getElem?_getD, List.getElem?_eq_getElem h]
  rfl

theorem getD_of_take_eq {α : Type} (l1 l2 : List α) (k a : Nat) (d : α)
    (h : l1.take k = l2.take k) (ha : a < k) : l1.getD a d = l2.getD a d := by
  have e1 : l1[a]? = (l1.take k)[a]? := by rw [List.getElem?_take, if_pos ha]
  have e2 : l2[a]? = (l2.take k)[a]? := by rw [List.getElem?_take, if_pos ha]
  rw [List.getD_eq_getElem?_getD, List.getD_eq_getElem?_getD, e1, e2, h]

theorem sel_passes_spec (M : Nat) :
    ∀ (n k : Nat) (l : List (Nat × Nat)), l.length = M →
      (∀ a b, a < b → b < M → a < k →
        (l.getD b (0, 0)).2 ≤ (l.getD a (0, 0)).2) →
      (sel_sort_passes M l (List.range' k n)).length = M ∧
      List.Perm (sel_sort_passes M l (List.range' k n)) l ∧
      (sel_sort_passes M l (List.range' k n)).take k = l.take k ∧
      (∀ a b, a < b → b < M → a < k + n →
        ((sel_sort_passes M l (List.range' k n)).getD b (0, 0)).2
          ≤ ((sel_sort_passes M l (List.range' k n)).getD a (0, 0)).2) := by
  intro n
  induction n with
  | zero =>
    intro k l hl hpre
    exact ⟨hl, List.Perm.refl l, rfl, fun a b hab hbM hak => hpre a b hab hbM hak⟩
  | succ n ih =>
    intro k l hl hpre
    rw [List.range'_succ]
    have hjs : ∀ j ∈ List.range' (k + 1) (M - (k + 1)), k < j ∧ j < l.length := by
      intro j hj
      rw [List.mem_range'] at hj
      obtain ⟨i, hi, rfl⟩ := hj
      constructor
      · omega
      · rw [hl]
        omega
    have hjs' : ∀ j ∈ List.range' (k + 1) (M - (k + 1)), k < j :=
      fun j hj => (hjs j hj).1
    have hnd : (List.range' (k + 1) (M - (k + 1))).Nodup := List.nodup_range' _ _
    have len1 : (sel_scan k l (List.range' (k + 1) (M - (k + 1)))).length = M := by
      rw [sel_scan_length, hl]
    have perm1 : List.Perm (sel_scan k l (List.range' (k + 1) (M - (k + 1)))) l :=
      sel_scan_perm k _ l hjs
    have take1 : (sel_scan k l (List.range' (k + 1) (M - (k + 1)))).take k
        = l.take k :=
      sel_scan_take k k (Nat.le_refl k) _ l hjs'
    have drop1 : List.Perm
        ((sel_scan k l (List.range' (k + 1) (M - (k + 1)))).drop k) (l.drop k) :=
      sel_scan_drop_perm k k (Nat.le_refl k) _ l hjs
    set l1 := sel_scan k l (List.range' (k + 1) (M - (k + 1))) with hl1
    have hpre1 : ∀ a b, a < b → b < M → a < k + 1 →
        (l1.getD b (0, 0)).2 ≤ (l1.getD a (0, 0)).2 := by
      intro a b hab hbM hak
      rcases Nat.lt_or_ge a k with haK | haK
      · have hva : l1.getD a (0, 0) = l.getD a (0, 0) :=
          getD_of_take_eq l1 l k a (0, 0) take1 haK
        rcases Nat.lt_or_ge b k with hbK | hbK
        · have hvb : l1.getD b (0, 0) = l.getD b (0, 0) :=
            getD_of_take_eq l1 l k b (0, 0) take1 hbK
          rw [hva, hvb]
          exact hpre a b hab hbM haK
        · have hbl : b - k < (l1.drop k).length := by
            rw [List.length_drop, len1]
            omega
          have hidx : l1[b]? = (l1.drop k)[b - k]? := by
            rw [List.getElem?_drop]
            congr 1
            omega
          have hvb : l1.getD b (0, 0) = (l1.drop k)[b - k] := by
            rw [List.getD_eq_getElem?_getD, hidx, List.getElem?_eq_getElem hbl]
            rfl
          have hmem : l1.getD b (0, 0) ∈ l.drop k := by
            rw [hvb]
            exact drop1.mem_iff.mp (List.getElem_mem hbl)
          obtain ⟨m, hm, hval⟩ := List.mem_iff_getElem.mp hmem
          have hval' : l1.getD b (0, 0) = l.getD (k + m) (0, 0) := by
            rw [← hval, getD_eq_getElem l (k + m) (0, 0) (by
              rw [List.length_drop] at hm
              omega)]
            exact List.getElem_drop l
          rw [hva, hval']
          refine hpre a (k + m) (by omega) ?_ haK
          rw [List.length_drop, hl] at hm
          omega
      · have haK' : a = k := by omega
        subst haK'
        have hbjs : b ∈ List.range' (a + 1) (M - (a + 1)) := by
          rw [List.mem_range']
          exact ⟨b - (a + 1), by omega, by omega⟩
        exact sel_scan_max a _ l hnd hjs b hbjs
    obtain ⟨ihlen, ihperm, ihtake, ihord⟩ := ih (k + 1) l1 len1 hpre1
    rw [sel_sort_passes]
    refine ⟨ihlen, ihperm.trans perm1, ?_, ?_⟩
    · have : (sel_sort_passes M l1 (List.range' (k + 1) n)).take k
          = (sel_sort_passes M l1 (List.range' (k + 1) n)).take (min k (k + 1)) := by
        rw [Nat.min_def, if_pos (by omega)]
      rw [this, ← List.take_take, ihtake, List.take_take,
          Nat.min_def, if_pos (by omega), take1]
    · intro a b hab hbM hak
      exact ihord a b hab hbM (by omega)

/-- C6 (amended) -/
theorem top_keys_spec (cfg : Config) (s : EngineState)
    (hK : cfg.topKeysCount ≤ cfg.maxKeyPositions) :
    ((zmk_keystroke_stats_get cfg false s).2.1.map Snapshot.top_keys)
      = some (top_keys_of cfg.topKeysCount cfg.maxKeyPositions s.key_counts) ∧
    (top_keys_of cfg.topKeysCount cfg.maxKeyPositions s.key_counts).length
      = cfg.topKeysCount ∧
    List.Sorted (fun a b : Nat × Nat => b.2 ≤ a.2)
      (top_keys_of cfg.topKeysCount cfg.maxKeyPositions s.key_counts) ∧
    (∀ p ∈ top_keys_of cfg.topKeysCount cfg.maxKeyPositions s.key_counts,
      p.1 < cfg.maxKeyPositions ∧ p.2 = s.key_counts.getD p.1 0) ∧
    ((top_keys_of cfg.topKeysCount cfg.maxKeyPositions s.key_counts).map
        Prod.fst).Nodup ∧
    (∃ rest,
      List.Perm
        ((List.range cfg.maxKeyPositions).map
          (fun i => (i, s.key_counts.getD i 0)))
        (top_keys_of cfg.topKeysCount cfg.maxKeyPositions s.key_counts ++ rest) ∧
      ∀ p ∈ top_keys_of cfg.topKeysCount cfg.maxKeyPositions s.key_counts,
        ∀ q ∈ rest, q.2 ≤ p.2) ∧
    top_keys_of 2 4 [5, 9, 9, 1] = [(1, 9), (2, 9)] := by
  obtain ⟨hlen, hperm, _, hord⟩ :=
    sel_passes_spec cfg.maxKeyPositions cfg.topKeysCount 0
      ((List.range cfg.maxKeyPositions).map
        (fun i => (i, s.key_counts.getD i 0)))
      (by simp)
      (fun a b _ _ hak => absurd hak (Nat.not_lt_zero a))
  rw [← List.range_eq_range'] at hlen hperm hord
  have htop : top_keys_of cfg.topKeysCount cfg.maxKeyPositions s.key_counts
      = (sel_sort_passes cfg.maxKeyPositions
          ((List.range cfg.maxKeyPositions).map
            (fun i => (i, s.key_counts.getD i 0)))
          (List.range cfg.topKeysCount)).take cfg.topKeysCount := rfl
  set L := sel_sort_passes cfg.maxKeyPositions
    ((List.range cfg.maxKeyPositions).map (fun i => (i, s.key_counts.getD i 0)))
    (List.range cfg.topKeysCount) with hL
  have hmem_l0 : ∀ p ∈ L.take cfg.topKeysCount,
      p.1 < cfg.maxKeyPositions ∧ p.2 = s.key_counts.getD p.1 0 := by
    intro p hp
    have hpL : p ∈ L := (List.take_sublist _ _).subset hp
    have hp0 := hperm.mem_iff.mp hpL
    rw [List.mem_map] at hp0
    obtain ⟨i, hi, rfl⟩ := hp0
    exact ⟨List.mem_range.mp hi, rfl⟩
  have hval : ∀ (a : Nat) (ha : a < cfg.maxKeyPositions),
      L.getD a (0, 0) = L[a] := by
    intro a ha
    exact getD_eq_getElem L a (0, 0) (by omega)
  rw [htop]
  refine ⟨rfl, ?_, ?_, hmem_l0, ?_, ?_, by decide⟩
  · rw [List.length_take, hlen]
    omega
  · rw [List.Sorted, List.pairwise_iff_getElem]
    intro a b ha hb hab
    rw [List.length_take, hlen] at ha hb
    have haK : a < cfg.topKeysCount := by omega
    have hbK : b < cfg.topKeysCount := by omega
    have ea : (L.take cfg.topKeysCount)[a] = L[a] :=
      List.getElem_take L
    have eb : (L.take cfg.topKeysCount)[b] = L[b] :=
      List.getElem_take L
    rw [ea, eb, ← hval a (by omega), ← hval b (by omega)]
    exact hord a b hab (by omega) (by omega)
  · have h0 : (((List.range cfg.maxKeyPositions).map
        (fun i => (i, s.key_counts.getD i 0))).map Prod.fst).Nodup := by
      rw [List.map_map]
      have hcomp : (Prod.fst ∘ fun i => ((i : Nat), s.key_counts.getD i 0)) = id := by
        funext i
        rfl
      rw [hcomp, List.map_id]
      exact List.nodup_range _
    have hLn : (L.map Prod.fst).Nodup := (hperm.map Prod.fst).nodup_iff.mpr h0
    exact hLn.sublist ((List.take_sublist _ _).map Prod.fst)
  · refine ⟨L.drop cfg.topKeysCount,
      by rw [List.take_append_drop]; exact hperm.symm, ?_⟩
    intro p hp q hq
    obtain ⟨a, ha, hpa⟩ := List.mem_iff_getElem.mp hp
    obtain ⟨m, hm, hqm⟩ := List.mem_iff_getElem.mp hq
    rw [List.length_take, hlen] at ha
    rw [List.length_drop, hlen] at hm
    have hpa' : p = L[a] := by
      rw [← hpa]
      exact List.getElem_take L
    have hqm' : q = L[cfg.topKeysCount + m] := by
      rw [← hqm]
      exact List.getElem_drop L
    rw [hpa', hqm', ← hval a (by omega),
        ← hval (cfg.topKeysCount + m) (by omega)]
    exact hord a (cfg.topKeysCount + m) (by omega) (by omega) (by omega)

theorem top_keys_tie_order_violated :
    top_keys_of 3 3 [5, 5, 9] = [(2, 9), (1, 5), (0, 5)] ∧
    ¬ List.Pairwise
        (fun a b : Nat × Nat => b.2 < a.2 ∨ (a.2 = b.2 ∧ a.1 < b.1))
        (top_keys_of 3 3 [5, 5, 9]) := by
  decide

theorem top_keys_spec_witness :
    cfgW.topKeysCount ≤ cfgW.maxKeyPositions ∧
    (((zmk_keystroke_stats_get cfgW false
        { keystroke_stats_init cfgW 0 with
          key_counts := [5, 9, 9, 1] }).2.1.map Snapshot.top_keys)
      = some [(1, 9), (2, 9)] ∧
    top_keys_of 2 4 [5, 9, 9, 1] = [(1, 9), (2, 9)]) := by
  have T := top_keys_spec cfgW
    { keystroke_stats_init cfgW 0 with key_counts := [5, 9, 9, 1] }
    (by decide)
  exact ⟨by decide, by rw [T.1]; decide, T.2.2.2.2.2.2⟩
